import Mathlib

set_option maxRecDepth 100000

/-!
Shallow embedding of the Routing & Dispatch Engine of the Hybrid-AI-Stack
repository (scripts/smart_router.py and the manual-override dispatch of
gateway/app.py), together with theorems settling the specification claims.

Prompts are modelled as `List Char`; Python float arithmetic on the small
decimal score/cost constants is modelled over `ℚ`.  Python's `str.lower`
is modelled per-character by `Char.toLower` (the prompts relevant to the
claims are ASCII).  Regex searches of `smart_router.CODE_PATTERNS` are
modelled by executable substring / word-boundary scanners defined below.
-/

namespace SmartRouter

/-- ASCII word character, the `\w` class used by the `\b` boundaries in
`CODE_PATTERNS` (`[A-Za-z0-9_]`). -/
def isWordChar (c : Char) : Bool := c.isAlphanum || c == '_'

/-- Python `str.lower`, per character (ASCII). -/
def toLowerL (s : List Char) : List Char := s.map Char.toLower

/-- Does `kw` match at the head of `s`?  (Executable prefix test.) -/
def prefCheck : List Char → List Char → Bool
  | [], _ => true
  | _ :: _, [] => false
  | a :: as, b :: bs => a == b && prefCheck as bs

/-- Does `kw` occur as a contiguous substring of `s`?  Models Python's
`kw in s` on strings and the regex search for a literal pattern. -/
def subCheck (kw : List Char) : List Char → Bool
  | [] => prefCheck kw []
  | c :: rest => prefCheck kw (c :: rest) || subCheck kw rest

/-- Match `w` at the head of `s`, returning the remainder on success. -/
def matchPref : List Char → List Char → Option (List Char)
  | [], s => some s
  | _ :: _, [] => none
  | a :: as, b :: bs => if a == b then matchPref as bs else none

/-- Word-boundary condition on the character preceding a candidate match
(`none` = start of string). -/
def boundaryB : Option Char → Bool
  | none => true
  | some c => !isWordChar c

/-- Word-boundary condition on the text following a candidate match
(empty = end of string). -/
def afterOk : List Char → Bool
  | [] => true
  | c :: _ => !isWordChar c

/-- Does `\bw\b` match exactly at the head of `s`, given the preceding
character `prev`? -/
def startsWordAt (w s : List Char) (prev : Option Char) : Bool :=
  boundaryB prev &&
    (match matchPref w s with
     | some rest => afterOk rest
     | none => false)

/-- Scan `s` for a `\bw\b` match, tracking the previous character. -/
def hasWordAux (w : List Char) : Option Char → List Char → Bool
  | prev, [] => startsWordAt w [] prev
  | prev, c :: rest => startsWordAt w (c :: rest) prev || hasWordAux w (some c) rest

/-- Regex search `\bw\b` over `s` (the `\bdef\b`-style members of
`CODE_PATTERNS`). -/
def hasWord (w s : List Char) : Bool := hasWordAux w none s

/-- Characters of the `CODE_PATTERNS` character class `[{}\[\]();]`. -/
def SYNTAX_CHARS : List Char := ['\x7b', '\x7d', '[', ']', '(', ')', ';']

/-- Regex search for the character class `[{}\[\]();]`. -/
def hasSyntaxChar (s : List Char) : Bool := s.any (fun c => SYNTAX_CHARS.contains c)

/-- `SmartRouter.COMPLEX_KEYWORDS` (smart_router.py lines 73-77). -/
def COMPLEX_KEYWORDS : List (List Char) :=
  ["analyze".data, "design".data, "architect".data, "implement".data, "refactor".data,
   "optimize".data, "debug".data, "explain in detail".data, "comprehensive".data,
   "write code".data, "create function".data, "build".data, "develop".data]

/-- `SmartRouter.SIMPLE_KEYWORDS` (smart_router.py lines 79-82). -/
def SIMPLE_KEYWORDS : List (List Char) :=
  ["summarize".data, "list".data, "what is".data, "define".data, "yes or no".data,
   "classify".data, "categorize".data, "is this".data, "true or false".data]

/-- Number of complex keywords occurring in the lowercased prompt `pl`
(smart_router.py line 149). -/
def complexCount (pl : List Char) : Nat :=
  COMPLEX_KEYWORDS.countP (fun kw => subCheck kw pl)

/-- Number of simple keywords occurring in the lowercased prompt `pl`
(smart_router.py line 150). -/
def simpleCount (pl : List Char) : Nat :=
  SIMPLE_KEYWORDS.countP (fun kw => subCheck kw pl)

/-- Number of members of `CODE_PATTERNS` whose regex search succeeds on the
raw prompt (smart_router.py lines 84-89 and 164-165). -/
def codeMatches (s : List Char) : Nat :=
  (subCheck "```".data s).toNat + (hasWord "def".data s).toNat +
  (hasWord "class".data s).toNat + (hasWord "function".data s).toNat +
  (hasWord "import".data s).toNat + (hasWord "from".data s).toNat +
  (hasSyntaxChar s).toNat

/-- Factor 1 of `estimate_complexity`: length bucket (lines 134-145). -/
def lengthScore (n : Nat) : ℚ :=
  if n < 100 then 0.1 else if n < 500 then 0.3 else 0.5

/-- Factor 2 of `estimate_complexity`: keyword score on the lowercased
prompt (lines 147-161). -/
def keywordScore (pl : List Char) : ℚ :=
  if 0 < complexCount pl then min 0.3 ((complexCount pl : ℚ) * 0.1)
  else if 0 < simpleCount pl then -0.1
  else 0.1

/-- Factor 3 of `estimate_complexity`: code detection on the raw prompt
(lines 163-171). -/
def codeScore (s : List Char) : ℚ :=
  if 2 ≤ codeMatches s then 0.3 else 0

/-- Factor 4 of `estimate_complexity`: questions vs instructions; `s` is the
raw prompt, `pl` its lowercasing (lines 173-182). -/
def questionScore (s pl : List Char) : ℚ :=
  if ('?' ∈ s) ∧ s.count '?' ≤ 2 then -0.1
  else if subCheck "create".data pl || subCheck "build".data pl then 0.2
  else 0

/-- `SmartRouter.estimate_complexity` (smart_router.py lines 126-188):
the four factors are summed and the result clamped to [0,1].  Only the
numeric score component of the Python return value is modelled; the
human-readable reasoning string is not used by any routing decision. -/
def estimate_complexity (s : List Char) : ℚ :=
  max 0 (min 1 (lengthScore s.length + keywordScore (toLowerL s) +
    codeScore s + questionScore s (toLowerL s)))

/-- Static per-backend configuration (entries of `SmartRouter.MODELS`,
smart_router.py lines 34-70).  Network endpoints and the ternary
speed/energy metadata are omitted: no routing decision reads them. -/
structure ModelConfig where
  backend : String
  max_complexity : ℚ
  cost_per_token : ℚ
deriving DecidableEq

/-- `MODELS['claude-sonnet']['cost_per_token']` ($3 per 1M tokens). -/
def claude_cost_per_token : ℚ := 0.000003

/-- `SmartRouter.MODELS` (smart_router.py lines 34-70). -/
def MODELS : List (String × ModelConfig) :=
  [("tinyllama", ⟨"local", 0.3, 0⟩),
   ("phi2", ⟨"local", 0.6, 0⟩),
   ("bitnet-2b", ⟨"ternary", 0.5, 0⟩),
   ("mistral-7b-ternary", ⟨"ternary", 0.8, 0⟩),
   ("claude-sonnet", ⟨"cloud", 1, claude_cost_per_token⟩)]

/-- `SmartRouter.select_model` (smart_router.py lines 190-206).  The two
instance flags `self.ternary_available` and `self.use_local` are passed
explicitly. -/
def select_model (ternary_available use_local : Bool) (complexity : ℚ) : String :=
  if ternary_available then
    if complexity < 0.5 then "bitnet-2b"
    else if complexity < 0.8 then "mistral-7b-ternary"
    else "claude-sonnet"
  else if use_local = false ∨ 0.6 < complexity then "claude-sonnet"
  else if complexity < 0.3 then "tinyllama"
  else "phi2"

/-- `SmartRouter.estimate_cost` (smart_router.py lines 208-219).  Unknown
or local backends cost 0; otherwise `(len(prompt)/4 + response_length)`
times the backend's per-token rate, with exact (float) division by 4. -/
def estimate_cost (s : List Char) (model : String) (response_length : Nat := 500) : ℚ :=
  match MODELS.lookup model with
  | none => 0
  | some cfg =>
      if cfg.backend = "local" then 0
      else ((s.length : ℚ) / 4 + (response_length : ℚ)) * cfg.cost_per_token

/-! ### Backend execution (smart_router.py lines 249-340)

The outbound network calls are abstracted by their outcomes: an
`Option` payload is `none` exactly when the call fails for any reason
(network error, non-success HTTP status, timeout — all of which surface
as a Python exception caught by the same `except` clause).  A Python
exception escaping the function is modelled by `Except.error`. -/

/-- Payload of a successful ternary-server `/generate` call
(smart_router.py lines 261-263). -/
structure TernaryResponse where
  text : String
  inference_time_ms : ℚ
  tokens_per_second : ℚ
deriving DecidableEq

/-- Payload of a successful Anthropic API call (smart_router.py
lines 319-327). -/
structure CloudResponse where
  text : String
  input_tokens : Nat
  output_tokens : Nat
deriving DecidableEq

/-- Exceptions the executor can raise: the `ValueError` for a missing
API key (line 316) and a propagated API/network failure (lines 338-340). -/
inductive ExecError where
  | config : ExecError
  | api : ExecError
deriving DecidableEq

/-- Normalized execution result.  The fields common to the result
dictionaries of all strategies are modelled (`model`, `backend`,
`response`, `cost`); the per-strategy extras (timings, token counts,
quantization tag) do not affect any claim. -/
structure ExecResult where
  model : String
  backend : String
  response : String
  cost : ℚ
deriving DecidableEq

/-- `SmartRouter.execute_claude_request` (smart_router.py lines 313-340).
`hasClient` is whether `self.anthropic_client` was initialized (an
`ANTHROPIC_API_KEY` was present, lines 107-112); `api` is the outcome of
the Anthropic call.  Raises `ValueError` when no client is configured,
propagates an API failure, and otherwise prices the reported token
counts at the claude-sonnet per-token rate. -/
def execute_claude_request (hasClient : Bool) (api : Option CloudResponse) :
    Except ExecError ExecResult :=
  if hasClient = false then .error .config
  else
    match api with
    | none => .error .api
    | some r =>
        .ok ⟨"claude-sonnet", "cloud", r.text,
          ((r.input_tokens : ℚ) + (r.output_tokens : ℚ)) * claude_cost_per_token⟩

/-- `SmartRouter.execute_ternary_request` (smart_router.py lines 249-277).
`ternary` is the outcome of the POST to the ternary server; on any
failure the `except` clause falls back to `execute_claude_request`. -/
def execute_ternary_request (model : String) (ternary : Option TernaryResponse)
    (hasClient : Bool) (api : Option CloudResponse) : Except ExecError ExecResult :=
  match ternary with
  | some r => .ok ⟨model, "ternary", r.text, 0⟩
  | none => execute_claude_request hasClient api

end SmartRouter

namespace Gateway

open SmartRouter

/-- Action taken by the `/api/v1/chat` handler for a given `model`
override field (gateway/app.py lines 133-150).  `badRequest` is the
HTTP 400 response returned before any backend call is made; no network
call is attached to it. -/
inductive ChatAction where
  | smart : ChatAction
  | ollamaCall : String → ChatAction
  | claudeCall : ChatAction
  | badRequest : String → ChatAction
deriving DecidableEq

/-- Manual-override dispatch of the `chat` handler (gateway/app.py lines
133-150): `'auto'` goes to smart routing; `tinyllama`/`phi2` go straight
to the Ollama executor; `claude-sonnet` to the Claude executor; anything
else is rejected with a 400 `Unknown model` error. -/
def chat_dispatch (model_override : String) : ChatAction :=
  if model_override ≠ "auto" then
    if model_override = "tinyllama" ∨ model_override = "phi2" then
      .ollamaCall model_override
    else if model_override = "claude-sonnet" then .claudeCall
    else .badRequest ("Unknown model: " ++ model_override)
  else .smart

end Gateway

namespace SmartRouter

/-- Concrete 501-character prompt: contains a fenced code-block marker and
the word "implement", has no other code pattern, no question mark and no
other keyword. -/
def c1cexPrompt : List Char :=
  "implement ".data ++ List.replicate 488 'a' ++ "```".data

/-- Concrete 501-character prompt: like `c1cexPrompt` but ending in
"```();", so that two distinct code patterns match. -/
def c1witPrompt : List Char :=
  "implement ".data ++ List.replicate 485 'a' ++ "```();".data

/-! ### Substring machinery lemmas -/

/-- A prefix match survives extending the text on the right. -/
theorem prefCheck_append_right (kw : List Char) :
    ∀ s q : List Char, prefCheck kw s = true → prefCheck kw (s ++ q) = true := by
  induction kw with
  | nil => intro s q _; rfl
  | cons a as ih =>
    intro s q h
    cases s with
    | nil => simp [prefCheck] at h
    | cons b bs =>
      rw [prefCheck, Bool.and_eq_true] at h
      rw [List.cons_append, prefCheck, Bool.and_eq_true]
      exact ⟨h.1, ih bs q h.2⟩

/-- A substring occurrence survives extending the text on the right. -/
theorem subCheck_append_right (kw : List Char) :
    ∀ s q : List Char, subCheck kw s = true → subCheck kw (s ++ q) = true := by
  intro s
  induction s with
  | nil =>
    intro q h
    rw [subCheck] at h
    cases kw with
    | nil =>
      cases q with
      | nil => rfl
      | cons c rest => rw [List.nil_append, subCheck, prefCheck, Bool.true_or]
    | cons a as => simp [prefCheck] at h
  | cons c rest ih =>
    intro q h
    rw [subCheck, Bool.or_eq_true] at h
    rw [List.cons_append, subCheck, Bool.or_eq_true]
    rcases h with h | h
    · exact Or.inl (prefCheck_append_right kw (c :: rest) q h)
    · exact Or.inr (ih q h)

/-- The head of a matched pattern occurs in the text. -/
theorem subCheck_head_mem (a : Char) (as : List Char) :
    ∀ s : List Char, subCheck (a :: as) s = true → a ∈ s := by
  intro s
  induction s with
  | nil => intro h; simp [subCheck, prefCheck] at h
  | cons c rest ih =>
    intro h
    rw [subCheck, Bool.or_eq_true] at h
    rcases h with h | h
    · rw [prefCheck, Bool.and_eq_true] at h
      exact (eq_of_beq h.1) ▸ List.mem_cons_self c rest
    · exact List.mem_cons_of_mem c (ih h)

/-- A prefix match inside `s ++ q` that uses no character of `q` already
matches inside `s`. -/
theorem prefCheck_of_append (kw : List Char) (q : List Char)
    (hq : ∀ ch ∈ kw, ch ∉ q) :
    ∀ s : List Char, prefCheck kw (s ++ q) = true → prefCheck kw s = true := by
  induction kw with
  | nil => intro s _; rfl
  | cons a as ih =>
    intro s h
    cases s with
    | nil =>
      rw [List.nil_append] at h
      cases q with
      | nil => simp [prefCheck] at h
      | cons b bs =>
        rw [prefCheck, Bool.and_eq_true] at h
        exact absurd ((eq_of_beq h.1) ▸ List.mem_cons_self b bs)
          (hq a (List.mem_cons_self a as))
    | cons b bs =>
      rw [List.cons_append, prefCheck, Bool.and_eq_true] at h
      rw [prefCheck, Bool.and_eq_true]
      refine ⟨h.1, ih (fun ch hch => hq ch (List.mem_cons_of_mem a hch)) bs h.2⟩

/-- A substring occurrence in `s ++ q` of a pattern sharing no character
with `q` is already an occurrence in `s`. -/
theorem subCheck_of_append (kw : List Char) (q : List Char)
    (hq : ∀ ch ∈ kw, ch ∉ q) :
    ∀ s : List Char, subCheck kw (s ++ q) = true → subCheck kw s = true := by
  intro s
  induction s with
  | nil =>
    intro h
    rw [List.nil_append] at h
    cases kw with
    | nil => rfl
    | cons a as =>
      exact absurd (subCheck_head_mem a as q h) (hq a (List.mem_cons_self a as))
  | cons c rest ih =>
    intro h
    rw [List.cons_append, subCheck, Bool.or_eq_true] at h
    rw [subCheck, Bool.or_eq_true]
    rcases h with h | h
    · exact Or.inl (prefCheck_of_append kw q hq (c :: rest) h)
    · exact Or.inr (ih h)

/-- A head match extends: matching `w` against `s ++ q` consumes the same
characters and leaves `rest ++ q`. -/
theorem matchPref_append (w : List Char) :
    ∀ s q rest : List Char, matchPref w s = some rest →
      matchPref w (s ++ q) = some (rest ++ q) := by
  induction w with
  | nil =>
    intro s q rest h
    rw [matchPref, Option.some.injEq] at h
    rw [matchPref, h]
  | cons a as ih =>
    intro s q rest h
    cases s with
    | nil => simp [matchPref] at h
    | cons b bs =>
      rw [matchPref] at h
      rw [List.cons_append, matchPref]
      by_cases hab : (a == b) = true
      · rw [if_pos hab] at h ⊢
        exact ih bs q rest h
      · rw [if_neg hab] at h
        exact absurd h (by simp)

/-- The trailing boundary check only looks at the first remaining
character, so it survives appending more text with a non-word head. -/
theorem afterOk_append (rest q : List Char) (h1 : afterOk rest = true)
    (h2 : afterOk q = true) : afterOk (rest ++ q) = true := by
  cases rest with
  | nil => rw [List.nil_append]; exact h2
  | cons c cs => rw [List.cons_append, afterOk]; exact h1

/-- A word-boundary match at a position survives appending text whose
first character is not a word character. -/
theorem startsWordAt_append (w s q : List Char) (prev : Option Char)
    (hq : afterOk q = true) (h : startsWordAt w s prev = true) :
    startsWordAt w (s ++ q) prev = true := by
  rw [startsWordAt, Bool.and_eq_true] at h
  rw [startsWordAt, Bool.and_eq_true]
  refine ⟨h.1, ?_⟩
  rcases h with ⟨-, h2⟩
  cases hm : matchPref w s with
  | none => rw [hm] at h2; simp at h2
  | some rest =>
    rw [hm] at h2
    rw [matchPref_append w s q rest hm]
    exact afterOk_append rest q h2 hq

/-- A word-boundary match somewhere in the text yields a scan success. -/
theorem hasWordAux_of_startsWordAt (w s : List Char) (prev : Option Char)
    (h : startsWordAt w s prev = true) : hasWordAux w prev s = true := by
  cases s with
  | nil => exact h
  | cons c rest => rw [hasWordAux, Bool.or_eq_true]; exact Or.inl h

/-- The word-boundary scan survives appending text whose first character
is not a word character. -/
theorem hasWordAux_append (w q : List Char) (hq : afterOk q = true) :
    ∀ (s : List Char) (prev : Option Char), hasWordAux w prev s = true →
      hasWordAux w prev (s ++ q) = true := by
  intro s
  induction s with
  | nil =>
    intro prev h
    rw [hasWordAux] at h
    rw [List.nil_append]
    exact hasWordAux_of_startsWordAt w q prev (startsWordAt_append w [] q prev hq h)
  | cons c rest ih =>
    intro prev h
    rw [hasWordAux, Bool.or_eq_true] at h
    rw [List.cons_append, hasWordAux, Bool.or_eq_true]
    rcases h with h | h
    · exact Or.inl (startsWordAt_append w (c :: rest) q prev hq h)
    · exact Or.inr (ih (some c) h)

/-- Regex `\bw\b` searches survive appending text with a non-word first
character. -/
theorem hasWord_append (w s q : List Char) (hq : afterOk q = true)
    (h : hasWord w s = true) : hasWord w (s ++ q) = true :=
  hasWordAux_append w q hq s none h

/-- The character-class search survives appending text. -/
theorem hasSyntaxChar_append (s q : List Char) (h : hasSyntaxChar s = true) :
    hasSyntaxChar (s ++ q) = true := by
  rw [hasSyntaxChar, List.any_append]
  rw [hasSyntaxChar] at h
  rw [h, Bool.true_or]

/-- Appending text sharing no character with the keywords of a list leaves
every keyword-occurrence count unchanged. -/
theorem countP_subCheck_append (L : List (List Char)) (pl q : List Char)
    (hq : ∀ kw ∈ L, ∀ ch ∈ kw, ch ∉ q) :
    L.countP (fun kw => subCheck kw (pl ++ q)) =
      L.countP (fun kw => subCheck kw pl) := by
  induction L with
  | nil => rfl
  | cons kw L ih =>
    rw [List.countP_cons, List.countP_cons,
      ih (fun k hk => hq k (List.mem_cons_of_mem kw hk))]
    have hkw : subCheck kw (pl ++ q) = subCheck kw pl := by
      cases h1 : subCheck kw pl with
      | true => exact subCheck_append_right kw pl q h1
      | false =>
        cases h2 : subCheck kw (pl ++ q) with
        | false => rfl
        | true =>
          exact absurd
            (subCheck_of_append kw q (hq kw (List.mem_cons_self kw L)) pl h2)
            (by rw [h1]; exact fun hf => Bool.false_ne_true hf)
    rw [hkw]

/-! ### Factor-level lemmas -/

/-- The length factor is monotone in the prompt length. -/
theorem lengthScore_mono {n m : Nat} (h : n ≤ m) :
    lengthScore n ≤ lengthScore m := by
  unfold lengthScore
  split_ifs <;> first | (norm_num; done) | omega

/-- The form factor never contributes less than `-0.1`. -/
theorem questionScore_lb (s pl : List Char) : -0.1 ≤ questionScore s pl := by
  unfold questionScore
  split_ifs <;> norm_num

/-- Lowercasing maps over list append. -/
theorem toLowerL_append (s q : List Char) :
    toLowerL (s ++ q) = toLowerL s ++ toLowerL q :=
  List.map_append Char.toLower s q

/-- The code-fence marker is unchanged by lowercasing. -/
theorem toLowerL_fence : toLowerL "```".data = "```".data := by decide

/-- Appending a code fence never changes the keyword factor: no keyword of
either list contains a backtick, so no occurrence can span the boundary. -/
theorem keywordScore_append_fence (pl : List Char) :
    keywordScore (pl ++ "```".data) = keywordScore pl := by
  have hc : complexCount (pl ++ "```".data) = complexCount pl :=
    countP_subCheck_append COMPLEX_KEYWORDS pl "```".data (by decide)
  have hs : simpleCount (pl ++ "```".data) = simpleCount pl :=
    countP_subCheck_append SIMPLE_KEYWORDS pl "```".data (by decide)
  unfold keywordScore complexCount simpleCount at *
  rw [hc, hs]

/-- Appending a code fence never decreases the number of matching code
patterns. -/
theorem codeMatches_append_fence (s : List Char) :
    codeMatches s ≤ codeMatches (s ++ "```".data) := by
  have hfence : afterOk "```".data = true := by decide
  have key : ∀ b b' : Bool, (b = true → b' = true) → b.toNat ≤ b'.toNat := by
    intro b b' h
    cases b with
    | false => exact Nat.zero_le _
    | true => rw [h rfl]
  unfold codeMatches
  have h1 := key _ _ (subCheck_append_right "```".data s "```".data)
  have h2 := key _ _ (hasWord_append "def".data s "```".data hfence)
  have h3 := key _ _ (hasWord_append "class".data s "```".data hfence)
  have h4 := key _ _ (hasWord_append "function".data s "```".data hfence)
  have h5 := key _ _ (hasWord_append "import".data s "```".data hfence)
  have h6 := key _ _ (hasWord_append "from".data s "```".data hfence)
  have h7 := key _ _ (hasSyntaxChar_append s "```".data)
  omega

/-- The code factor is monotone in the number of matching patterns. -/
theorem codeScore_le_of_matches_le {s t : List Char}
    (h : codeMatches s ≤ codeMatches t) : codeScore s ≤ codeScore t := by
  unfold codeScore
  split_ifs <;> first | (norm_num; done) | omega

/-- Appending a code fence never decreases the form factor: the question
marks are unchanged and a creative-task keyword cannot disappear. -/
theorem questionScore_append_fence (s pl : List Char) :
    questionScore s pl ≤ questionScore (s ++ "```".data) (pl ++ "```".data) := by
  have hnot : '?' ∉ "```".data := by decide
  have hmem : ('?' ∈ s ++ "```".data) ↔ ('?' ∈ s) := by
    rw [List.mem_append]
    exact or_iff_left hnot
  have hbt0 : List.count '?' "```".data = 0 := by decide
  have hcount : (s ++ "```".data).count '?' = s.count '?' := by
    rw [List.count_append, hbt0, Nat.add_zero]
  have hiff : (('?' ∈ s ++ "```".data) ∧ (s ++ "```".data).count '?' ≤ 2) ↔
      (('?' ∈ s) ∧ s.count '?' ≤ 2) := by
    rw [hmem, hcount]
  unfold questionScore
  by_cases h1 : ('?' ∈ s) ∧ s.count '?' ≤ 2
  · have h1' := hiff.mpr h1
    rw [if_pos h1, if_pos h1']
  · have h1' : ¬ (('?' ∈ s ++ "```".data) ∧ (s ++ "```".data).count '?' ≤ 2) :=
      fun hh => h1 (hiff.mp hh)
    rw [if_neg h1, if_neg h1']
    by_cases h2 : (subCheck "create".data pl || subCheck "build".data pl) = true
    · have h2' : (subCheck "create".data (pl ++ "```".data) ||
          subCheck "build".data (pl ++ "```".data)) = true := by
        rw [Bool.or_eq_true] at h2 ⊢
        rcases h2 with h2 | h2
        · exact Or.inl (subCheck_append_right _ pl _ h2)
        · exact Or.inr (subCheck_append_right _ pl _ h2)
      rw [if_pos h2, if_pos h2']
    · rw [if_neg h2]
      split_ifs <;> norm_num

/-- Claim C7.  For every prompt `p`, the complexity score of `p` with a
code fence marker appended is at least the complexity score of `p` alone:
appending a recognizable code fence never decreases the score returned by
`estimate_complexity`. -/
theorem claim_C7_fence_never_decreases_score (s : List Char) :
    estimate_complexity s ≤ estimate_complexity (s ++ "```".data) := by
  unfold estimate_complexity
  apply max_le_max le_rfl
  apply min_le_min le_rfl
  have h1 : lengthScore s.length ≤ lengthScore (s ++ "```".data).length :=
    lengthScore_mono (by rw [List.length_append]; omega)
  have h2 : keywordScore (toLowerL s) ≤ keywordScore (toLowerL (s ++ "```".data)) := by
    rw [toLowerL_append, toLowerL_fence, keywordScore_append_fence]
  have h3 : codeScore s ≤ codeScore (s ++ "```".data) :=
    codeScore_le_of_matches_le (codeMatches_append_fence s)
  have h4 : questionScore s (toLowerL s) ≤
      questionScore (s ++ "```".data) (toLowerL (s ++ "```".data)) := by
    rw [toLowerL_append, toLowerL_fence]
    exact questionScore_append_fence s (toLowerL s)
  exact add_le_add (add_le_add (add_le_add h1 h2) h3) h4

/-- Claim C8.  For every input string, the complexity score returned by
`estimate_complexity` lies in the closed interval [0,1]; the function is
total (it is a Lean function defined on every `List Char`, including the
empty list). -/
theorem claim_C8_score_in_unit_interval (s : List Char) :
    0 ≤ estimate_complexity s ∧ estimate_complexity s ≤ 1 := by
  unfold estimate_complexity
  exact ⟨le_max_left 0 _, max_le (by norm_num) (min_le_left 1 _)⟩

/-- Claim C6.  For every prompt text and every assumed response length,
`estimate_cost` returns exactly 0 for each backend whose tier is local or
ternary: tinyllama and phi2 return 0 through the explicit local-backend
branch, bitnet-2b and mistral-7b-ternary through their zero per-token
rate. -/
theorem claim_C6_local_and_ternary_cost_zero (s : List Char) (rl : Nat) :
    estimate_cost s "tinyllama" rl = 0 ∧ estimate_cost s "phi2" rl = 0 ∧
    estimate_cost s "bitnet-2b" rl = 0 ∧
    estimate_cost s "mistral-7b-ternary" rl = 0 := by
  refine ⟨?_, ?_, ?_, ?_⟩ <;>
    simp [estimate_cost, MODELS, List.lookup, mul_zero]

/-- Claim C3, counterexample.  On the one-character prompt "a" the cost
returned for the cloud backend is `(1/4 + 500) × 0.000003`, which differs
from the claimed `(⌈1/4⌉ + 500) × 0.000003`: the code divides the
character count by 4 exactly, without taking a ceiling. -/
theorem claim_C3_counterexample :
    estimate_cost "a".data "claude-sonnet" 500 ≠
      ((⌈("a".data.length : ℚ) / 4⌉ : ℚ) + 500) * 0.000003 := by
  have hlen : ("a".data.length : ℚ) = 1 := by norm_num
  rw [hlen]
  have hceil0 : ⌈(1 : ℚ) / 4⌉ = 1 := by
    rw [Int.ceil_eq_iff]
    norm_num
  have hceil : (⌈(1 : ℚ) / 4⌉ : ℚ) = 1 := by rw [hceil0]; norm_num
  rw [hceil]
  simp [estimate_cost, MODELS, List.lookup, claude_cost_per_token]
  norm_num

/-- Closed form of the metered cloud cost with the default assumed
response length. -/
theorem estimate_cost_claude_closed_form (s : List Char) :
    estimate_cost s "claude-sonnet" 500 = ((s.length : ℚ) / 4 + 500) * 0.000003 := by
  simp [estimate_cost, MODELS, List.lookup, claude_cost_per_token]

/-- Claim C3, amended.  For every prompt text, `estimate_cost` on the
cloud backend with the default assumed response length 500 equals
`(len(text)/4 + 500) × 0.000003`, where the prompt token estimate is the
exact division of the character length by 4 (no ceiling is taken). -/
theorem claim_C3_cloud_cost_formula (s : List Char) :
    estimate_cost s "claude-sonnet" 500 = ((s.length : ℚ) / 4 + 500) * 0.000003 :=
  estimate_cost_claude_closed_form s

/-- Claim C9.  If the ternary call fails (`none` outcome) and no cloud
client was configured at initialization, `execute_ternary_request` raises
the configuration error to the caller instead of returning a result,
whatever the hypothetical cloud outcome would have been: the
ternary-to-cloud fallback is transparent only when cloud credentials are
present. -/
theorem claim_C9_fallback_without_client_raises (model : String)
    (api : Option CloudResponse) :
    execute_ternary_request model none false api = .error .config := rfl

/-- Claim C5.  Whenever the ternary outbound call fails (`none` outcome,
covering network error, non-success status and timeout, which all reach
the same `except` clause), `execute_ternary_request` returns exactly the
cloud strategy's result, and any successfully returned result carries
backend "cloud", never the ternary identifier — the caller never
observes the ternary failure directly. -/
theorem claim_C5_ternary_failure_falls_back_to_cloud (model : String)
    (hasClient : Bool) (api : Option CloudResponse) :
    execute_ternary_request model none hasClient api =
      execute_claude_request hasClient api ∧
    (∀ r : ExecResult, execute_ternary_request model none hasClient api = .ok r →
      r.backend = "cloud") := by
  refine ⟨rfl, ?_⟩
  intro r hr
  rw [execute_ternary_request] at hr
  unfold execute_claude_request at hr
  cases hasClient with
  | false => simp at hr
  | true =>
    cases api with
    | none => simp at hr
    | some resp =>
      simp only [Bool.true_eq_false, if_false, Except.ok.injEq] at hr
      rw [← hr]

/-- Claim C5, witness: a concrete failed ternary call with a configured
cloud client and a successful cloud response, on which the fallback
result's backend field is "cloud". -/
theorem claim_C5_witness :
    execute_ternary_request "bitnet-2b" none true (some ⟨"hi", 10, 20⟩) =
      execute_claude_request true (some ⟨"hi", 10, 20⟩) ∧
    (ExecResult.mk "claude-sonnet" "cloud" "hi"
      ((((10 : Nat) : ℚ) + ((20 : Nat) : ℚ)) * claude_cost_per_token)).backend =
      "cloud" :=
  ⟨(claim_C5_ternary_failure_falls_back_to_cloud "bitnet-2b" true
      (some ⟨"hi", 10, 20⟩)).1,
   (claim_C5_ternary_failure_falls_back_to_cloud "bitnet-2b" true
      (some ⟨"hi", 10, 20⟩)).2 _ rfl⟩

end SmartRouter

namespace Gateway

/-- Claim C10.  The manual-override path of the chat handler accepts
exactly tinyllama, phi2 and claude-sonnet; any other override — in
particular the ternary backends bitnet-2b and mistral-7b-ternary, which
are in the router's `MODELS` set — is answered with a 400 `Unknown model`
validation response, an action that carries no backend call. -/
theorem claim_C10_override_accepts_exactly_three (m : String) :
    ((chat_dispatch m = .ollamaCall m ∨ chat_dispatch m = .claudeCall) ↔
      (m = "tinyllama" ∨ m = "phi2" ∨ m = "claude-sonnet")) ∧
    chat_dispatch "bitnet-2b" = .badRequest "Unknown model: bitnet-2b" ∧
    chat_dispatch "mistral-7b-ternary" =
      .badRequest "Unknown model: mistral-7b-ternary" ∧
    (SmartRouter.MODELS.lookup "bitnet-2b").isSome = true ∧
    (SmartRouter.MODELS.lookup "mistral-7b-ternary").isSome = true := by
  refine ⟨⟨?_, ?_⟩, rfl, rfl, rfl, rfl⟩
  · intro h
    unfold chat_dispatch at h
    split_ifs at h with h1 h2 h3
    · rcases h2 with h2 | h2
      · exact Or.inl h2
      · exact Or.inr (Or.inl h2)
    · exact Or.inr (Or.inr h3)
    · rcases h with h | h <;> simp at h
    · rcases h with h | h <;> simp at h
  · intro h
    rcases h with h | h | h <;> subst h
    · exact Or.inl rfl
    · exact Or.inl rfl
    · exact Or.inr rfl

end Gateway

namespace SmartRouter

/-! ### Concrete evaluation of the estimator -/

/-- Evaluation scaffold: the estimator rewritten through the values of its
four factors. -/
theorem estimate_complexity_eval (s : List Char) (lq kq cq qq : ℚ)
    (h1 : lengthScore s.length = lq) (h2 : keywordScore (toLowerL s) = kq)
    (h3 : codeScore s = cq) (h4 : questionScore s (toLowerL s) = qq) :
    estimate_complexity s = max 0 (min 1 (lq + kq + cq + qq)) := by
  unfold estimate_complexity
  rw [h1, h2, h3, h4]

/-- The empty prompt scores 0.2: length bucket 0.1 plus the neutral
keyword branch 0.1; code and form factors contribute 0. -/
theorem estimate_complexity_nil : estimate_complexity [] = 0.2 := by
  have h1 : lengthScore ([] : List Char).length = 0.1 := by norm_num [lengthScore]
  have h2 : keywordScore (toLowerL []) = 0.1 := by
    unfold keywordScore
    rw [show complexCount (toLowerL []) = 0 from by decide,
      show simpleCount (toLowerL []) = 0 from by decide]
    norm_num
  have h3 : codeScore [] = 0 := by
    unfold codeScore
    rw [show codeMatches [] = 0 from by decide]
    norm_num
  have h4 : questionScore [] (toLowerL []) = 0 := by
    unfold questionScore
    rw [if_neg (by decide), if_neg (by decide)]
  rw [estimate_complexity_eval [] _ _ _ _ h1 h2 h3 h4]
  rw [min_eq_right (by norm_num), max_eq_right (by norm_num)]
  norm_num

/-- Claim C2, counterexample.  `estimate_complexity` applied to the empty
string does not return 0.1: the neutral-keyword branch adds a second 0.1
on top of the short-length bucket, so the score is 0.2. -/
theorem claim_C2_counterexample : estimate_complexity [] ≠ 0.1 := by
  rw [estimate_complexity_nil]
  norm_num

/-- Claim C2, amended.  `estimate_complexity` applied to the empty string
returns 0.2 (length bucket 0.1 plus neutral-keyword 0.1), and under the
standard policy (ternary unavailable, local routing enabled) the empty
prompt is routed to the smallest local backend tinyllama with estimated
cost 0. -/
theorem claim_C2_empty_prompt_routing :
    estimate_complexity [] = 0.2 ∧
    select_model false true (estimate_complexity []) = "tinyllama" ∧
    MODELS.lookup "tinyllama" = some ⟨"local", 0.3, 0⟩ ∧
    estimate_cost [] "tinyllama" 500 = 0 := by
  refine ⟨estimate_complexity_nil, ?_, rfl, ?_⟩
  · rw [estimate_complexity_nil]
    unfold select_model
    rw [if_neg (by simp), if_neg ?hc, if_pos (by norm_num)]
    case hc =>
      rintro (h | h)
      · exact absurd h (by simp)
      · exact absurd h (by norm_num)
  · simp [estimate_cost, MODELS, List.lookup]

/-- Claim C4.  For every complexity score in [0,1] and every combination
of the ternary-availability and local-routing flags, `select_model`
returns the name of a configured backend, and that backend's
`max_complexity` is at least the score — or else the selected backend is
the highest-tier cloud backend with `max_complexity` 1. -/
theorem claim_C4_selected_backend_capacity (ta ul : Bool) (c : ℚ)
    (_h0 : 0 ≤ c) (_h1 : c ≤ 1) :
    (MODELS.lookup (select_model ta ul c)).isSome = true ∧
    (∀ cfg : ModelConfig, MODELS.lookup (select_model ta ul c) = some cfg →
      (c ≤ cfg.max_complexity ∨
        (select_model ta ul c = "claude-sonnet" ∧ cfg.max_complexity = 1))) := by
  unfold select_model
  split_ifs with hta h05 h08 hcl h03
  · refine ⟨rfl, ?_⟩
    intro cfg hcfg
    rw [show MODELS.lookup "bitnet-2b" = some ⟨"ternary", 0.5, 0⟩ from rfl,
      Option.some.injEq] at hcfg
    rw [← hcfg]
    exact Or.inl (le_of_lt h05)
  · refine ⟨rfl, ?_⟩
    intro cfg hcfg
    rw [show MODELS.lookup "mistral-7b-ternary" = some ⟨"ternary", 0.8, 0⟩ from rfl,
      Option.some.injEq] at hcfg
    rw [← hcfg]
    exact Or.inl (le_of_lt h08)
  · refine ⟨rfl, ?_⟩
    intro cfg hcfg
    rw [show MODELS.lookup "claude-sonnet" = some ⟨"cloud", 1, claude_cost_per_token⟩
      from rfl, Option.some.injEq] at hcfg
    rw [← hcfg]
    exact Or.inr ⟨rfl, rfl⟩
  · refine ⟨rfl, ?_⟩
    intro cfg hcfg
    rw [show MODELS.lookup "claude-sonnet" = some ⟨"cloud", 1, claude_cost_per_token⟩
      from rfl, Option.some.injEq] at hcfg
    rw [← hcfg]
    exact Or.inr ⟨rfl, rfl⟩
  · refine ⟨rfl, ?_⟩
    intro cfg hcfg
    rw [show MODELS.lookup "tinyllama" = some ⟨"local", 0.3, 0⟩ from rfl,
      Option.some.injEq] at hcfg
    rw [← hcfg]
    exact Or.inl (le_of_lt h03)
  · refine ⟨rfl, ?_⟩
    intro cfg hcfg
    rw [show MODELS.lookup "phi2" = some ⟨"local", 0.6, 0⟩ from rfl,
      Option.some.injEq] at hcfg
    rw [← hcfg]
    push_neg at hcl
    exact Or.inl (le_of_not_lt (fun hlt => absurd hlt (not_lt_of_le hcl.2)))

/-- Claim C4, witness: score 0.5 under the standard policy selects phi2,
whose configured `max_complexity` 0.6 is at least 0.5. -/
theorem claim_C4_witness :
    (0.5 : ℚ) ≤ (ModelConfig.mk "local" 0.6 0).max_complexity ∨
      (select_model false true 0.5 = "claude-sonnet" ∧
        (ModelConfig.mk "local" 0.6 0).max_complexity = 1) := by
  have hsel : select_model false true 0.5 = "phi2" := by
    unfold select_model
    rw [if_neg (by simp), if_neg ?hc, if_neg (by norm_num)]
    case hc =>
      rintro (h | h)
      · exact absurd h (by simp)
      · exact absurd h (by norm_num)
  exact (claim_C4_selected_backend_capacity false true 0.5 (by norm_num)
    (by norm_num)).2 ⟨"local", 0.6, 0⟩ (by rw [hsel]; rfl)

end SmartRouter

namespace SmartRouter

/-- The 501-character prompt with a fence and "implement" but no second
code pattern and no question mark scores exactly 0.6: length 0.5, one
complex keyword 0.1, code factor 0 (only one pattern matches), form
factor 0. -/
theorem estimate_complexity_c1cex : estimate_complexity c1cexPrompt = 0.6 := by
  have h1 : lengthScore c1cexPrompt.length = 0.5 := by
    rw [show c1cexPrompt.length = 501 from by decide]
    norm_num [lengthScore]
  have h2 : keywordScore (toLowerL c1cexPrompt) = 0.1 := by
    unfold keywordScore
    rw [show complexCount (toLowerL c1cexPrompt) = 1 from by decide,
      show simpleCount (toLowerL c1cexPrompt) = 0 from by decide]
    rw [if_pos (by norm_num)]
    norm_num [min_def]
  have h3 : codeScore c1cexPrompt = 0 := by
    unfold codeScore
    rw [show codeMatches c1cexPrompt = 1 from by decide]
    norm_num
  have h4 : questionScore c1cexPrompt (toLowerL c1cexPrompt) = 0 := by
    unfold questionScore
    rw [if_neg (by decide), if_neg (by decide)]
  rw [estimate_complexity_eval c1cexPrompt _ _ _ _ h1 h2 h3 h4]
  rw [min_eq_right (by norm_num), max_eq_right (by norm_num)]
  norm_num

/-- Claim C1, counterexample.  `c1cexPrompt` is longer than 500
characters, contains a fenced code-block marker and the word "implement",
yet its score is 0.6, not strictly greater than 0.6, and the standard
policy routes it to the local backend phi2 (not the cloud backend), at
estimated cost 0. -/
theorem claim_C1_counterexample :
    500 < c1cexPrompt.length ∧
    subCheck "```".data c1cexPrompt = true ∧
    subCheck "implement".data c1cexPrompt = true ∧
    ¬ (0.6 < estimate_complexity c1cexPrompt) ∧
    select_model false true (estimate_complexity c1cexPrompt) ≠ "claude-sonnet" ∧
    estimate_cost c1cexPrompt
      (select_model false true (estimate_complexity c1cexPrompt)) 500 = 0 := by
  have hsel : select_model false true (estimate_complexity c1cexPrompt) = "phi2" := by
    rw [estimate_complexity_c1cex]
    unfold select_model
    rw [if_neg (by simp), if_neg ?hc, if_neg (by norm_num)]
    case hc =>
      rintro (h | h)
      · exact absurd h (by simp)
      · exact absurd h (by norm_num)
  refine ⟨by decide, by decide, by decide, ?_, ?_, ?_⟩
  · rw [estimate_complexity_c1cex]
    norm_num
  · rw [hsel]
    simp
  · rw [hsel]
    simp [estimate_cost, MODELS, List.lookup]

/-- Claim C1, amended.  For every prompt of length greater than 500
characters that contains a fenced code block marker and the word
"implement" and on which a second code pattern also matches (at least two
of the `CODE_PATTERNS` succeed), the score exceeds 0.6, the standard
policy therefore selects the cloud backend claude-sonnet, and the
estimated cost is strictly positive. -/
theorem claim_C1_long_code_prompt_goes_to_cloud (s : List Char)
    (hlen : 500 < s.length)
    (_hbt : subCheck "```".data s = true)
    (himpl : subCheck "implement".data (toLowerL s) = true)
    (hcode : 2 ≤ codeMatches s) :
    0.6 < estimate_complexity s ∧
    select_model false true (estimate_complexity s) = "claude-sonnet" ∧
    MODELS.lookup "claude-sonnet" = some ⟨"cloud", 1, claude_cost_per_token⟩ ∧
    0 < estimate_cost s "claude-sonnet" 500 := by
  have h1 : lengthScore s.length = 0.5 := by
    unfold lengthScore
    rw [if_neg (by omega), if_neg (by omega)]
  have hcc : 0 < complexCount (toLowerL s) := by
    refine List.countP_pos_iff.mpr ⟨"implement".data, by decide, himpl⟩
  have h2 : (0.1 : ℚ) ≤ keywordScore (toLowerL s) := by
    unfold keywordScore
    rw [if_pos hcc]
    have hc1 : (1 : ℚ) ≤ (complexCount (toLowerL s) : ℚ) := by
      exact_mod_cast hcc
    refine le_min (by norm_num) (by nlinarith)
  have h3 : codeScore s = 0.3 := by
    unfold codeScore
    rw [if_pos hcode]
  have h4 := questionScore_lb s (toLowerL s)
  have hraw : (0.8 : ℚ) ≤ lengthScore s.length + keywordScore (toLowerL s) +
      codeScore s + questionScore s (toLowerL s) := by
    rw [h1, h3]
    linarith
  have hscore : (0.8 : ℚ) ≤ estimate_complexity s := by
    unfold estimate_complexity
    refine le_trans (le_min (by norm_num) hraw) (le_max_right 0 _)
  have hgt : (0.6 : ℚ) < estimate_complexity s := lt_of_lt_of_le (by norm_num) hscore
  have hsel : select_model false true (estimate_complexity s) = "claude-sonnet" := by
    unfold select_model
    rw [if_neg (by simp), if_pos (Or.inr hgt)]
  refine ⟨hgt, hsel, rfl, ?_⟩
  have hcost : estimate_cost s "claude-sonnet" 500 =
      ((s.length : ℚ) / 4 + 500) * 0.000003 := estimate_cost_claude_closed_form s
  rw [hcost]
  have hpos : (0 : ℚ) < (s.length : ℚ) / 4 + 500 := by positivity
  exact mul_pos hpos (by norm_num)

end SmartRouter

namespace SmartRouter

/-- Claim C1, witness: the concrete 501-character prompt `c1witPrompt`
(fence, "implement", and bracket/semicolon characters as a second code
pattern) satisfies every hypothesis, scores above 0.6, and is routed to
the cloud backend at positive estimated cost. -/
theorem claim_C1_witness :
    0.6 < estimate_complexity c1witPrompt ∧
    select_model false true (estimate_complexity c1witPrompt) = "claude-sonnet" ∧
    MODELS.lookup "claude-sonnet" = some ⟨"cloud", 1, claude_cost_per_token⟩ ∧
    0 < estimate_cost c1witPrompt "claude-sonnet" 500 :=
  claim_C1_long_code_prompt_goes_to_cloud c1witPrompt (by decide) (by decide)
    (by decide) (by decide)

end SmartRouter
